import Mathlib

/-!
Verification of the core logic of `label_memories.py` (a human-in-the-loop
memory-labelling tool): record transformation, dataset loading, label-state
management and JSONL export.  Python JSON values are embedded as the `Json`
inductive; Python dictionaries are association lists with unique keys kept in
insertion order; `json.loads` is an abstract parameter `parse`; the clock
(`datetime.now`) is an explicit `now : String` parameter.
-/

/-- A JSON value as produced by Python's `json.loads`: `null` is Python `None`,
objects are insertion-ordered dictionaries with unique keys. -/
inductive Json where
  | null : Json
  | bool : Bool → Json
  | num : Int → Json
  | str : String → Json
  | arr : List Json → Json
  | obj : List (String × Json) → Json

mutual

/-- Python `==` on JSON values (structural equality). -/
def jsonBEq : Json → Json → Bool
  | .null, .null => true
  | .bool a, .bool b => a == b
  | .num a, .num b => a == b
  | .str a, .str b => a == b
  | .arr xs, .arr ys => jsonListBEq xs ys
  | .obj xs, .obj ys => jsonKVBEq xs ys
  | _, _ => false

def jsonListBEq : List Json → List Json → Bool
  | [], [] => true
  | x :: xs, y :: ys => jsonBEq x y && jsonListBEq xs ys
  | _, _ => false

def jsonKVBEq : List (String × Json) → List (String × Json) → Bool
  | [], [] => true
  | (k1, v1) :: xs, (k2, v2) :: ys => k1 == k2 && jsonBEq v1 v2 && jsonKVBEq xs ys
  | _, _ => false

end

/-- First-match lookup in a Python dict (keys are unique, so first = only). -/
def jLookup : List (String × Json) → String → Option Json
  | [], _ => none
  | (k, v) :: rest, key => if k = key then some v else jLookup rest key

/-- Python `key in dict`. -/
def hasKey (kvs : List (String × Json)) (key : String) : Bool :=
  (jLookup kvs key).isSome

/-- Python `dict.get(key)`: the value, or `None` when the key is absent. -/
def dictGet (kvs : List (String × Json)) (key : String) : Json :=
  (jLookup kvs key).getD Json.null

/-- Python `dict.get(key, default)` (the default is used only when the key is
absent; a stored `null` value is returned as `null`). -/
def dictGetD (kvs : List (String × Json)) (key : String) (dflt : Json) : Json :=
  (jLookup kvs key).getD dflt

/-- Python `d[k] = v` on a dict: replace in place if the key exists, else
append at the end (insertion order). -/
def updKey : List (String × Json) → String → Json → List (String × Json)
  | [], k, v => [(k, v)]
  | (k0, v0) :: rest, k, v =>
      if k0 = k then (k0, v) :: rest else (k0, v0) :: updKey rest k v

/-- Python `base.update(upd)` on dicts (shallow merge, `upd` wins). -/
def updAll (base upd : List (String × Json)) : List (String × Json) :=
  upd.foldl (fun acc kv => updKey acc kv.1 kv.2) base

/-- `merged_record = record.copy(); merged_record.update(lbl)` where both are
JSON objects (the only case the program produces). -/
def pyUpdate : Json → Json → Json
  | .obj base, .obj upd => .obj (updAll base upd)
  | a, _ => a

/-- Python truthiness of a JSON value (`if x:`). -/
def truthy : Json → Bool
  | .null => false
  | .bool b => b
  | .num n => n != 0
  | .str s => s ≠ ""
  | .arr xs => !xs.isEmpty
  | .obj kvs => !kvs.isEmpty

def isObj : Json → Bool
  | .obj _ => true
  | _ => false

/-- `v.get(key)` where `v` is known to be a dict in the program; on non-dicts
the program would raise, which callers rule out (loader output is always an
object). -/
def jGet : Json → String → Json
  | .obj kvs, k => dictGet kvs k
  | _, _ => .null

/-- `key in v` for a dict value. -/
def jHasKey : Json → String → Bool
  | .obj kvs, k => hasKey kvs k
  | _, _ => false

/-- A Python dict keyed by arbitrary JSON values (the label stores are keyed by
the `observation_id` value). -/
def mapLookup : List (Json × Json) → Json → Option Json
  | [], _ => none
  | (k, v) :: rest, key => if jsonBEq k key then some v else mapLookup rest key

/-- `m[k] = v` for a value-keyed dict. -/
def mapSet : List (Json × Json) → Json → Json → List (Json × Json)
  | [], k, v => [(k, v)]
  | (k0, v0) :: rest, k, v =>
      if jsonBEq k0 k then (k0, v) :: rest else (k0, v0) :: mapSet rest k v

/-- Does `pat` occur as a contiguous sublist of `s`?  (Python `pat in s` on
strings, character-wise.) -/
def containsSub (pat : List Char) : List Char → Bool
  | [] => pat.isEmpty
  | c :: rest => pat.isPrefixOf (c :: rest) || containsSub pat rest

/-- Python `needle in hay` for strings (literal substring). -/
def strContains (needle hay : String) : Bool :=
  containsSub needle.data hay.data

/-- Python `s.find(pat)` (restricted to found/not-found): index of the first
occurrence, character-wise. -/
def findSub (pat : List Char) : List Char → Option Nat
  | [] => if pat.isEmpty then some 0 else none
  | c :: rest =>
      if pat.isPrefixOf (c :: rest) then some 0
      else (findSub pat rest).map (· + 1)

/-- Python `s.rfind(pat)`: index of the last occurrence. -/
def rfindSub (pat s : List Char) : Option Nat :=
  ((List.range (s.length + 1)).filter (fun i => pat.isPrefixOf (s.drop i))).getLast?

/-- Python `s.strip()`: drop leading and trailing whitespace. -/
def pyStrip (s : String) : String :=
  String.mk (((s.data.dropWhile Char.isWhitespace).reverse.dropWhile
    Char.isWhitespace).reverse)

/-- Python `"\n".join(lines)`. -/
def joinNL : List String → String
  | [] => ""
  | [x] => x
  | x :: xs => x ++ "\n" ++ joinNL xs

/-- Python `needle in v` for an arbitrary value `v`: substring on strings,
membership on lists, key membership on dicts; `none` models the `TypeError`
raised on numbers, booleans and `None`. -/
def pyIn (needle : String) : Json → Option Bool
  | .str s => some (strContains needle s)
  | .arr xs => some (xs.any (fun x => jsonBEq x (Json.str needle)))
  | .obj kvs => some (hasKey kvs needle)
  | _ => none

/-- Python `v[key]` with a string key: only dicts support it (`none` models the
`TypeError`/`KeyError` otherwise). -/
def pySubscr : Json → String → Option Json
  | .obj kvs, k => jLookup kvs k
  | _, _ => none

/-- Python `for x in v`: lists yield their elements, strings their characters
(as 1-character strings), dicts their keys; `none` models the `TypeError` on
numbers, booleans and `None`. -/
def pyIter : Json → Option (List Json)
  | .arr xs => some xs
  | .str s => some (s.data.map (fun c => Json.str (String.mk [c])))
  | .obj kvs => some (kvs.map (fun kv => Json.str kv.1))
  | _ => none

/- ### JSON serialization: `json.dumps(..., ensure_ascii=False)` -/

def hexDigit (n : Nat) : Char :=
  if n < 10 then Char.ofNat (48 + n) else Char.ofNat (87 + n)

/-- Four-digit lowercase hex, as in a JSON `\uXXXX` escape. -/
def hex4 (n : Nat) : String :=
  String.mk [hexDigit (n / 4096 % 16), hexDigit (n / 256 % 16),
             hexDigit (n / 16 % 16), hexDigit (n % 16)]

/-- Escaping of one character inside a JSON string literal as done by
`json.dumps` with `ensure_ascii=False`: only the quote, the backslash and
control characters are escaped; everything else — including non-ASCII — is
emitted literally. -/
def escChar (c : Char) : String :=
  if c = '"' then "\\\""
  else if c = '\\' then "\\\\"
  else if c = '\n' then "\\n"
  else if c = '\t' then "\\t"
  else if c = '\r' then "\\r"
  else if c = '\x08' then "\\b"
  else if c = '\x0c' then "\\f"
  else if c.toNat < 32 then "\\u" ++ hex4 c.toNat
  else String.mk [c]

def escStr (s : String) : String :=
  String.join (s.data.map escChar)

mutual

/-- `json.dumps(v, ensure_ascii=False)` with the default separators
`", "` and `": "`. -/
def dumps : Json → String
  | .null => "null"
  | .bool b => if b then "true" else "false"
  | .num n => toString n
  | .str s => "\"" ++ escStr s ++ "\""
  | .arr xs => "[" ++ dumpsArr xs ++ "]"
  | .obj kvs => "\x7b" ++ dumpsObj kvs ++ "\x7d"

def dumpsArr : List Json → String
  | [] => ""
  | [x] => dumps x
  | x :: y :: xs => dumps x ++ ", " ++ dumpsArr (y :: xs)

def dumpsObj : List (String × Json) → String
  | [] => ""
  | [(k, v)] => "\"" ++ escStr k ++ "\": " ++ dumps v
  | (k, v) :: kv :: kvs =>
      "\"" ++ escStr k ++ "\": " ++ dumps v ++ ", " ++ dumpsObj (kv :: kvs)

end

/-- Python `str(v)` as used by the f-strings building widget keys
(`f"label_classification_{record_id}"`).  Exact for the identifier types that
occur (strings, integers, booleans, `None`); for containers Python would use
`repr`, approximated here by the JSON form — no behaviour modelled below
depends on that corner. -/
def pyStr : Json → String
  | .str s => s
  | .num n => toString n
  | .bool b => if b then "True" else "False"
  | .null => "None"
  | .arr xs => dumps (.arr xs)
  | .obj kvs => dumps (.obj kvs)

/-- `LABEL_CLASSIFICATIONS` from the configuration section. -/
def LABEL_CLASSIFICATIONS : List String :=
  ["Correct 👍", "Incorrect 👎", "I\x27m not sure 🤔"]

/- ### `transform_record` -/

/-- `record.get("id") or record.get("traceId")` (Python `or`: the first truthy
operand, else the second operand). -/
def obsOf (kvs : List (String × Json)) : Json :=
  let idv := dictGet kvs "id"
  if truthy idv then idv else dictGet kvs "traceId"

/-- `llm_output`: the `output` value when the key is present, else `""`. -/
def llmOf (kvs : List (String × Json)) : Json :=
  if hasKey kvs "output" then dictGet kvs "output" else Json.str ""

/-- The guard `"input" in record and "messages" in record["input"]` followed by
`record["input"]["messages"]`.  `none` models a `TypeError` escaping to the
outer handler (so the record is discarded); `some none` means the guard is
false (no message scan); `some (some v)` is the messages value. -/
def getMessages (kvs : List (String × Json)) : Option (Option Json) :=
  if hasKey kvs "input" then
    match jLookup kvs "input" with
    | some inp =>
        match pyIn "messages" inp with
        | none => none
        | some false => some none
        | some true =>
            match pySubscr inp "messages" with
            | none => none
            | some v => some (some v)
    | none => some none
  else some none

/-- The system-prompt loop: for every message with role `system`, append its
content (default `""`) plus `"\n\n"`.  `none` models an exception escaping to
the outer handler: a non-dict message (`AttributeError` on `.get`) or a
non-string content being concatenated (`TypeError`). -/
def sysPromptLoop : List Json → String → Option String
  | [], acc => some acc
  | msg :: rest, acc =>
      match msg with
      | .obj mkvs =>
          if jsonBEq (dictGet mkvs "role") (Json.str "system") then
            match dictGetD mkvs "content" (Json.str "") with
            | .str c => sysPromptLoop rest (acc ++ c ++ "\n\n")
            | _ => none
          else sysPromptLoop rest acc
      | _ => none

/-- Outcome of one message inside a best-effort extraction loop: `abort` models
an exception caught by the surrounding `except` (the loop stops, the value so
far is kept), `keep` continues unchanged, `set` continues with a new value. -/
inductive StepOut where
  | abort : StepOut
  | keep : StepOut
  | set : Json → StepOut

/-- The `try: for msg in messages: ... except: ...` pattern shared by the chat
history / existing memories / chat metadata extractions. -/
def sectionLoop (step : Json → StepOut) : List Json → Json → Json
  | [], cur => cur
  | msg :: rest, cur =>
      match step msg with
      | .abort => cur
      | .keep => sectionLoop step rest cur
      | .set v => sectionLoop step rest v

/-- One message of the chat-history extraction: if the content contains
`"Chat history"`, `"["` and `"]"`, take the substring from the first `[` to the
last `]` inclusive — but only when the first `[` is at a positive index
(`start_idx > 0`) and the `]` ends after it — parse it, and keep the result
only if it is a JSON array; parse failures and non-arrays are skipped, and a
non-string content raises inside the section (aborting it). -/
def chatStep (parse : String → Option Json) (msg : Json) : StepOut :=
  match msg with
  | .obj mkvs =>
      let content := dictGetD mkvs "content" (Json.str "")
      match pyIn "Chat history" content with
      | none => .abort
      | some false => .keep
      | some true =>
        match pyIn "[" content with
        | none => .abort
        | some false => .keep
        | some true =>
          match pyIn "]" content with
          | none => .abort
          | some false => .keep
          | some true =>
            match content with
            | .str cs =>
                match findSub ['['] cs.data, rfindSub [']'] cs.data with
                | some si, some ri =>
                    if si > 0 && ri + 1 > si then
                      match parse (String.mk ((cs.data.take (ri + 1)).drop si)) with
                      | some (.arr xs) => .set (.arr xs)
                      | _ => .keep
                    else .keep
                | _, _ => .keep
            | _ => .abort
  | _ => .abort

/-- One message of a fenced-block extraction (`existing_memories` /
`chat_metadata`): on a content containing the header and a triple backtick,
take the text after the first fence up to the next fence (`end_idx > 0`),
strip it, parse it, and keep the result only when `keepIf` accepts it. -/
def fencedStep (header : String) (keepIf : Json → Bool)
    (parse : String → Option Json) (msg : Json) : StepOut :=
  match msg with
  | .obj mkvs =>
      let content := dictGetD mkvs "content" (Json.str "")
      match pyIn header content with
      | none => .abort
      | some false => .keep
      | some true =>
        match pyIn "\x60\x60\x60" content with
        | none => .abort
        | some false => .keep
        | some true =>
          match content with
          | .str cs =>
              match findSub "\x60\x60\x60".data cs.data with
              | some f =>
                  let rest := cs.data.drop (f + 3)
                  match findSub "\x60\x60\x60".data rest with
                  | some e =>
                      if e > 0 then
                        match parse (pyStrip (String.mk (rest.take e))) with
                        | some v => if keepIf v then .set v else .keep
                        | none => .keep
                      else .keep
                  | none => .keep
              | none => .keep
          | _ => .abort
  | _ => .abort

def memStep (parse : String → Option Json) : Json → StepOut :=
  fencedStep "Current memories" isArr parse
where
  isArr : Json → Bool
    | .arr _ => true
    | _ => false

def metaStep (parse : String → Option Json) : Json → StepOut :=
  fencedStep "Chat metadata" isObj parse

/-- The tail of `transform_record`: the `alert_type` test
(`"<MEMORY" in llm_output`, whose `TypeError` on a non-string/container output
discards the record) and the construction of the transformed record — exactly
the seven keys of the source's dict literal. -/
def mkTransformed (obs llm : Json) (sp : String) (ch mem md : Json) :
    Option Json :=
  match pyIn "<MEMORY" llm with
  | none => none
  | some b =>
      some (.obj [("observation_id", obs), ("llm_output", llm),
        ("system_prompt", .str sp), ("chat_history", ch),
        ("existing_memories", mem), ("chat_metadata", md),
        ("alert_type", .str (if b then "memory" else "no_memory"))])

/-- `transform_record(record)`: `none` is Python `None` (the record is
discarded), whether via the explicit `return None` or via the outer
`except Exception`. -/
def transform_record (parse : String → Option Json) (record : Json) :
    Option Json :=
  match record with
  | .obj kvs =>
      if truthy (obsOf kvs) then
        match getMessages kvs with
        | none => none
        | some none =>
            mkTransformed (obsOf kvs) (llmOf kvs) "" (.arr []) (.arr []) (.obj [])
        | some (some mv) =>
            match pyIter mv with
            | none => none
            | some msgs =>
                match sysPromptLoop msgs "" with
                | none => none
                | some sp =>
                    mkTransformed (obsOf kvs) (llmOf kvs) sp
                      (sectionLoop (chatStep parse) msgs (.arr []))
                      (sectionLoop (memStep parse) msgs (.arr []))
                      (sectionLoop (metaStep parse) msgs (.obj []))
      else none
  | _ => none

/- ### `load_data_and_labels` -/

/-- The label object the loader would reconstruct for a processed record:
the four label fields read from the processed record with the source's
defaults (`timestamp` defaults to the current time, `classification` to
`LABEL_CLASSIFICATIONS[-1]`, critique and correction to `""`). -/
def recoveredLabel (now : String) (processed : Json) : Json :=
  .obj [
    ("human_label_timestamp",
      (match processed with
       | .obj kvs => dictGetD kvs "human_label_timestamp" (.str now)
       | _ => .str now)),
    ("human_label_classification",
      (match processed with
       | .obj kvs =>
           dictGetD kvs "human_label_classification"
             (.str (LABEL_CLASSIFICATIONS.getLastD ""))
       | _ => .str (LABEL_CLASSIFICATIONS.getLastD ""))),
    ("human_label_critique",
      (match processed with
       | .obj kvs => dictGetD kvs "human_label_critique" (.str "")
       | _ => .str "")),
    ("human_label_correct_memory_optional",
      (match processed with
       | .obj kvs => dictGetD kvs "human_label_correct_memory_optional" (.str "")
       | _ => .str ""))]

/-- One iteration of the loader's per-line loop.  A line is `none` when its
bytes fail UTF-8 decoding (`UnicodeDecodeError`), otherwise the decoded text;
`parse` is `json.loads` (`none` = `JSONDecodeError`).  Every per-line failure
is swallowed and leaves the accumulator unchanged. -/
def processLine (parse : String → Option Json) (now : String)
    (acc : List Json × List (Json × Json)) (line : Option String) :
    List Json × List (Json × Json) :=
  match line with
  | none => acc
  | some bytesText =>
      let line_str := pyStrip bytesText
      if line_str = "" then acc
      else
        match parse line_str with
        | none => acc
        | some record =>
            match transform_record parse record with
            | none => acc
            | some processed =>
                let data := acc.1 ++ [processed]
                let record_id := jGet processed "observation_id"
                if truthy record_id && jHasKey processed "human_label_classification"
                then (data, mapSet acc.2 record_id (recoveredLabel now processed))
                else (data, acc.2)

/-- `load_data_and_labels`: fold the per-line loop over the file's lines,
returning the processed records and the labels recovered from the file. -/
def load_data_and_labels (parse : String → Option Json) (now : String)
    (lines : List (Option String)) : List Json × List (Json × Json) :=
  lines.foldl (processLine parse now) ([], [])

/-- The per-line result the loader keeps (spec side of C7): decode the line,
skip it when undecodable / blank / unparsable / extracted to null, otherwise
its transformed record. -/
def lineExtract (parse : String → Option Json) (line : Option String) :
    Option Json :=
  line.bind (fun s =>
    let t := pyStrip s
    if t = "" then none else (parse t).bind (transform_record parse))

/- ### Session state, label persistence and navigation -/

/-- The parts of `st.session_state` the core logic reads and writes:
the active sequence `data`, the complete dataset `all_data`, the current
index, the label store, and the pending widget values
(`st.session_state[f"label_classification_{id}"]` etc.), looked up by key. -/
structure SessionState where
  data : List Json
  all_data : List Json
  index : Nat
  labels : List (Json × Json)
  widgets : String → Option String

/-- `save_labels_to_state(current_index, record_id)`: overwrite the stored
label for `record_id` with all four fields — a fresh timestamp (`now` models
`datetime.now(timezone.utc)...`), the pending classification widget value
(defaulting to `LABEL_CLASSIFICATIONS[-1]`), and the pending critique and
correction texts (defaulting to `""`). -/
def save_labels_to_state (now : String) (record_id : Json)
    (s : SessionState) : SessionState :=
  let classification :=
    (s.widgets ("label_classification_" ++ pyStr record_id)).getD
      (LABEL_CLASSIFICATIONS.getLastD "")
  let current_labels : Json := .obj [
    ("human_label_timestamp", .str now),
    ("human_label_classification", .str classification),
    ("human_label_critique",
      .str ((s.widgets ("critique_" ++ pyStr record_id)).getD "")),
    ("human_label_correct_memory_optional",
      .str ((s.widgets ("correct_mem_" ++ pyStr record_id)).getD ""))]
  { s with labels := mapSet s.labels record_id current_labels }

/-- The shared prologue of both navigation callbacks: if the active sequence
is non-empty and the index is in range, read the current record's
`observation_id` and, when it is truthy, persist the in-progress label. -/
def saveCurrent (now : String) (s : SessionState) : SessionState :=
  if !s.data.isEmpty && s.index < s.data.length then
    match s.data.get? s.index with
    | some record =>
        let record_id := jGet record "observation_id"
        if truthy record_id then save_labels_to_state now record_id s else s
    | none => s
  else s

/-- `go_previous`: save the current state, then decrement the index if it is
positive. -/
def go_previous (now : String) (s : SessionState) : SessionState :=
  let s1 := saveCurrent now s
  if s1.index > 0 then { s1 with index := s1.index - 1 } else s1

/-- `go_next`: save the current state, then increment the index if it is not
already at the last position of the currently displayed list. -/
def go_next (now : String) (s : SessionState) : SessionState :=
  let s1 := saveCurrent now s
  if s1.index < s1.data.length - 1 then { s1 with index := s1.index + 1 } else s1

/- ### `generate_labeled_data_jsonl` (export) -/

/-- The export loop body over `all_data`: skip records whose
`observation_id` is `None` (`record_id is None`), emit a serialized shallow
merge for records with a stored label, skip the rest.  (The source also skips
records failing `json.dumps` with a `TypeError`; values of `Json` are always
serializable, so that branch is unreachable here.) -/
def genLines (labels : List (Json × Json)) : List Json → List String
  | [] => []
  | record :: rest =>
      match jGet record "observation_id" with
      | .null => genLines labels rest
      | record_id =>
          match mapLookup labels record_id with
          | some lbl => dumps (pyUpdate record lbl) :: genLines labels rest
          | none => genLines labels rest

/-- `generate_labeled_data_jsonl`: iterate the complete dataset (`all_data`,
never the filtered `data`) in its original order and join the serialized
merged records with newlines; empty when nothing was labeled. -/
def generate_labeled_data_jsonl (s : SessionState) : String :=
  if !s.all_data.isEmpty && !s.labels.isEmpty then
    joinNL (genLines s.labels s.all_data)
  else ""

/- ### Spec-side definitions (used to state the claims) -/

/-- A message whose fields are well-formed for extraction: a JSON object whose
`content`, if present, is a string. -/
def wfMsg : Json → Bool
  | .obj mkvs =>
      (match jLookup mkvs "content" with
       | none => true
       | some (.str _) => true
       | some _ => false)
  | _ => false

/-- A raw record whose fields are well-formed for extraction: a JSON object
whose `output`, if present, is a string, and whose `input`, if present, is an
object whose `messages`, if present, is a list of well-formed messages.  On
such records `transform_record` never trips over a type error. -/
def wfRecord : Json → Bool
  | .obj kvs =>
      (match jLookup kvs "output" with
       | none => true
       | some (.str _) => true
       | some _ => false)
      &&
      (match jLookup kvs "input" with
       | none => true
       | some (.obj ikvs) =>
           (match jLookup ikvs "messages" with
            | none => true
            | some (.arr msgs) => msgs.all wfMsg
            | some _ => false)
       | some _ => false)
  | _ => false

/-- The message list scanned by the extraction loops (empty when
`input.messages` is absent). -/
def msgsOf (kvs : List (String × Json)) : List Json :=
  match jLookup kvs "input" with
  | some (.obj ikvs) =>
      match jLookup ikvs "messages" with
      | some (.arr msgs) => msgs
      | _ => []
  | _ => []

/-- The content string of a well-formed message (`msg.get("content", "")`). -/
def contentStr : Json → String
  | .obj mkvs =>
      (match jLookup mkvs "content" with
       | some (.str s) => s
       | _ => "")
  | _ => ""

/-- One step of the chat-history extraction exactly as claim C6 words it: for
a content containing `"Chat history"` and both `[` and `]`, take the substring
from the first `[` to the last `]` inclusive and parse it as JSON, keeping the
result only if it is an array; on any parse error or type mismatch the current
value is kept; iterating this over all messages makes the last successful
parse win. -/
def chatStepClaimed (parse : String → Option Json) (cur : List Json)
    (content : String) : List Json :=
  if strContains "Chat history" content && strContains "[" content
      && strContains "]" content then
    match findSub ['['] content.data, rfindSub [']'] content.data with
    | some si, some ri =>
        match parse (String.mk ((content.data.take (ri + 1)).drop si)) with
        | some (.arr xs) => xs
        | _ => cur
    | _, _ => cur
  else cur

/-- The chat history claim C6 predicts for a list of message contents. -/
def chatHistoryClaimed (parse : String → Option Json)
    (contents : List String) : List Json :=
  contents.foldl (chatStepClaimed parse) []

/-- The amended chat-history step: as `chatStepClaimed`, but the substring is
only taken when the first `[` sits at a positive index and the last `]` ends
after it (the source's `start_idx > 0 and end_idx > start_idx` guard). -/
def chatStepAmended (parse : String → Option Json) (cur : List Json)
    (content : String) : List Json :=
  if strContains "Chat history" content && strContains "[" content
      && strContains "]" content then
    match findSub ['['] content.data, rfindSub [']'] content.data with
    | some si, some ri =>
        if si > 0 && ri + 1 > si then
          match parse (String.mk ((content.data.take (ri + 1)).drop si)) with
          | some (.arr xs) => xs
          | _ => cur
        else cur
    | _, _ => cur
  else cur

/-- The chat history the amended claim predicts. -/
def chatHistoryAmended (parse : String → Option Json)
    (contents : List String) : List Json :=
  contents.foldl (chatStepAmended parse) []

/-- Spec side of the export (claim C3): one serialized line per record of the
complete dataset that has an `observation_id` and a stored label, in original
dataset order, each line being the shallow merge of the stored record's fields
with the four label fields. -/
def exportSpecLines (labels : List (Json × Json)) (all_data : List Json) :
    List String :=
  all_data.filterMap (fun record =>
    match jGet record "observation_id" with
    | .null => none
    | rid => (mapLookup labels rid).map (fun lbl => dumps (pyUpdate record lbl)))

/- ### Helper lemmas -/

mutual

theorem jsonBEq_refl : ∀ a : Json, jsonBEq a a = true
  | .null => rfl
  | .bool b => by simp [jsonBEq]
  | .num n => by simp [jsonBEq]
  | .str s => by simp [jsonBEq]
  | .arr xs => by simpa [jsonBEq] using jsonListBEq_refl xs
  | .obj kvs => by simpa [jsonBEq] using jsonKVBEq_refl kvs

theorem jsonListBEq_refl : ∀ xs : List Json, jsonListBEq xs xs = true
  | [] => rfl
  | x :: xs => by simp [jsonListBEq, jsonBEq_refl x, jsonListBEq_refl xs]

theorem jsonKVBEq_refl : ∀ kvs : List (String × Json), jsonKVBEq kvs kvs = true
  | [] => rfl
  | (k, v) :: kvs => by simp [jsonKVBEq, jsonBEq_refl v, jsonKVBEq_refl kvs]

end

/-- Assigning a key in a value-keyed dict makes lookup of that key return the
new value, whatever was stored before (last write wins). -/
theorem mapLookup_mapSet (m : List (Json × Json)) (k v : Json) :
    mapLookup (mapSet m k v) k = some v := by
  induction m with
  | nil => simp [mapSet, mapLookup, jsonBEq_refl]
  | cons kv rest ih =>
      obtain ⟨k0, v0⟩ := kv
      cases h : jsonBEq k0 k with
      | true => simp [mapSet, mapLookup, h]
      | false => simp [mapSet, mapLookup, h, ih]

/-- Shape of a successfully built transformed record: the seven-key object
literal of the source, with `alert_type` decided by `"<MEMORY" in llm_output`. -/
theorem mkTransformed_some {obs llm : Json} {sp : String} {ch mem md t : Json}
    (h : mkTransformed obs llm sp ch mem md = some t) :
    ∃ b, pyIn "<MEMORY" llm = some b ∧
      t = .obj [("observation_id", obs), ("llm_output", llm),
        ("system_prompt", .str sp), ("chat_history", ch),
        ("existing_memories", mem), ("chat_metadata", md),
        ("alert_type", .str (if b then "memory" else "no_memory"))] := by
  unfold mkTransformed at h
  cases hp : pyIn "<MEMORY" llm with
  | none => rw [hp] at h; cases h
  | some b =>
      rw [hp] at h
      exact ⟨b, rfl, (Option.some.inj h).symm⟩

/-- Every success of `transform_record` factors through `mkTransformed` on an
object record with a truthy identifier. -/
theorem transform_record_some {parse : String → Option Json} {r t : Json}
    (h : transform_record parse r = some t) :
    ∃ kvs sp ch mem md, r = .obj kvs ∧ truthy (obsOf kvs) = true ∧
      mkTransformed (obsOf kvs) (llmOf kvs) sp ch mem md = some t := by
  cases r with
  | obj kvs =>
      simp only [transform_record] at h
      split at h
      case isTrue ht =>
        split at h
        · cases h
        · exact ⟨kvs, "", .arr [], .arr [], .obj [], rfl, ht, h⟩
        · split at h
          · cases h
          · split at h
            · cases h
            · exact ⟨kvs, _, _, _, _, rfl, ht, h⟩
      case isFalse ht => cases h
  | null => cases h
  | bool b => cases h
  | num n => cases h
  | str s => cases h
  | arr xs => cases h

/-- A transformed record never contains the key
`human_label_classification`: its keys are exactly the source's seven. -/
theorem transform_no_label_key {parse : String → Option Json} {r t : Json}
    (h : transform_record parse r = some t) :
    jHasKey t "human_label_classification" = false := by
  obtain ⟨kvs, sp, ch, mem, md, _, _, hmk⟩ := transform_record_some h
  obtain ⟨b, _, ht⟩ := mkTransformed_some hmk
  subst ht
  simp [jHasKey, hasKey, jLookup]

/-- One loader iteration appends the line's surviving record (if any) to the
data and never touches the recovered-labels map: the label-recovery branch is
dead because a transformed record never carries the checked key. -/
theorem processLine_eq (parse : String → Option Json) (now : String)
    (acc : List Json × List (Json × Json)) (line : Option String) :
    processLine parse now acc line
      = (acc.1 ++ (lineExtract parse line).toList, acc.2) := by
  cases line with
  | none => simp [processLine, lineExtract]
  | some s =>
      simp only [processLine, lineExtract, Option.bind_some]
      by_cases hb : pyStrip s = ""
      · simp [hb]
      · cases hp : parse (pyStrip s) with
        | none => simp [hb, hp]
        | some record =>
            cases htr : transform_record parse record with
            | none => simp [hb, hp, htr]
            | some processed =>
                have hk := transform_no_label_key htr
                simp [hb, hp, htr, hk]

/-- Folding the loader's loop from any accumulator appends exactly the
surviving per-line records, in input order, and leaves the labels unchanged. -/
theorem load_foldl (parse : String → Option Json) (now : String) :
    ∀ (lines : List (Option String)) (acc : List Json × List (Json × Json)),
    lines.foldl (processLine parse now) acc
      = (acc.1 ++ lines.filterMap (lineExtract parse), acc.2) := by
  intro lines
  induction lines with
  | nil => intro acc; simp
  | cons l ls ih =>
      intro acc
      rw [List.foldl_cons, ih, processLine_eq]
      cases h : lineExtract parse l with
      | none => simp [List.filterMap_cons, h]
      | some r => simp [List.filterMap_cons, h]

/-- `load_data_and_labels` returns exactly the surviving per-line extractions
(in input order) and an always-empty recovered-labels map. -/
theorem load_eq (parse : String → Option Json) (now : String)
    (lines : List (Option String)) :
    load_data_and_labels parse now lines
      = (lines.filterMap (lineExtract parse), []) := by
  rw [load_data_and_labels, load_foldl]
  simp

/-- On a well-formed record the `llm_output` is a string. -/
theorem llmOf_wf {kvs : List (String × Json)}
    (h : wfRecord (.obj kvs) = true) : ∃ s, llmOf kvs = Json.str s := by
  simp only [wfRecord, Bool.and_eq_true] at h
  obtain ⟨ho, _⟩ := h
  unfold llmOf hasKey dictGet
  cases hl : jLookup kvs "output" with
  | none => exact ⟨"", by simp [hl]⟩
  | some v =>
      rw [hl] at ho
      cases v <;> simp_all

/-- On a well-formed record every scanned message is well-formed. -/
theorem msgsOf_wf {kvs : List (String × Json)}
    (h : wfRecord (.obj kvs) = true) : (msgsOf kvs).all wfMsg = true := by
  simp only [wfRecord, Bool.and_eq_true] at h
  obtain ⟨_, hi⟩ := h
  unfold msgsOf
  cases hl : jLookup kvs "input" with
  | none => simp
  | some inp =>
      rw [hl] at hi
      cases inp <;> simp_all
      case obj ikvs =>
        cases hm : jLookup ikvs "messages" with
        | none => simp
        | some mv =>
            rw [hm] at hi
            cases mv <;> simp_all

/-- The system-prompt loop never raises on well-formed messages. -/
theorem sysPromptLoop_wf :
    ∀ (msgs : List Json), msgs.all wfMsg = true → ∀ acc : String,
    (sysPromptLoop msgs acc).isSome = true := by
  intro msgs
  induction msgs with
  | nil => intro _ acc; simp [sysPromptLoop]
  | cons msg rest ih =>
      intro h acc
      rw [List.all_cons, Bool.and_eq_true] at h
      obtain ⟨hm, hrest⟩ := h
      cases msg with
      | obj mkvs =>
          simp only [wfMsg] at hm
          simp only [sysPromptLoop]
          split
          · unfold dictGetD
            cases hc : jLookup mkvs "content" with
            | none => simpa using ih hrest _
            | some c =>
                rw [hc] at hm
                cases c with
                | str s => simpa using ih hrest (acc ++ s ++ "\n\n")
                | null => simp at hm
                | bool b => simp at hm
                | num n => simp at hm
                | arr xs => simp at hm
                | obj o => simp at hm
          · exact ih hrest acc
      | null => simp [wfMsg] at hm
      | bool b => simp [wfMsg] at hm
      | num n => simp [wfMsg] at hm
      | str s => simp [wfMsg] at hm
      | arr xs => simp [wfMsg] at hm

/-- Evaluation of `transform_record` on a well-formed record: the identity
test, then the seven-field construction over the scanned messages (all
best-effort sections folded over `msgsOf`). -/
theorem transform_wf_eq (parse : String → Option Json)
    {kvs : List (String × Json)} (h : wfRecord (.obj kvs) = true) :
    transform_record parse (.obj kvs)
      = if truthy (obsOf kvs) then
          mkTransformed (obsOf kvs) (llmOf kvs)
            ((sysPromptLoop (msgsOf kvs) "").getD "")
            (sectionLoop (chatStep parse) (msgsOf kvs) (.arr []))
            (sectionLoop (memStep parse) (msgsOf kvs) (.arr []))
            (sectionLoop (metaStep parse) (msgsOf kvs) (.obj []))
        else none := by
  have hmsgs := msgsOf_wf h
  simp only [wfRecord, Bool.and_eq_true] at h
  obtain ⟨ho, hi⟩ := h
  simp only [transform_record]
  cases hl : jLookup kvs "input" with
  | none =>
      have hgm : getMessages kvs = some none := by
        simp [getMessages, hasKey, hl]
      have hms : msgsOf kvs = [] := by simp [msgsOf, hl]
      rw [hgm, hms]
      simp [sectionLoop, sysPromptLoop]
  | some inp =>
      rw [hl] at hi
      cases inp with
      | obj ikvs =>
          dsimp only at hi
          cases hm : jLookup ikvs "messages" with
          | none =>
              have hgm : getMessages kvs = some none := by
                simp [getMessages, hasKey, hl, pyIn, hm]
              have hms : msgsOf kvs = [] := by simp [msgsOf, hl, hm]
              rw [hgm, hms]
              simp [sectionLoop, sysPromptLoop]
          | some mv =>
              rw [hm] at hi
              cases mv with
              | arr msgs =>
                  have hgm : getMessages kvs = some (some (.arr msgs)) := by
                    simp [getMessages, hasKey, hl, pyIn, hm, pySubscr]
                  have hms : msgsOf kvs = msgs := by simp [msgsOf, hl, hm]
                  rw [hgm, hms]
                  simp only [pyIter]
                  rw [hms] at hmsgs
                  have hsp := sysPromptLoop_wf msgs hmsgs ""
                  cases hspv : sysPromptLoop msgs "" with
                  | none => rw [hspv] at hsp; cases hsp
                  | some sp => simp [hspv]
              | null => simp at hi
              | bool b => simp at hi
              | num n => simp at hi
              | str s => simp at hi
              | obj okvs => simp at hi
      | null => simp at hi
      | bool b => simp at hi
      | num n => simp at hi
      | str s => simp at hi
      | arr xs => simp at hi

/-- On a well-formed message, `msg.get("content", "")` is the string
`contentStr msg`. -/
theorem wfMsg_content {mkvs : List (String × Json)}
    (h : wfMsg (.obj mkvs) = true) :
    dictGetD mkvs "content" (.str "") = .str (contentStr (.obj mkvs)) := by
  simp only [wfMsg] at h
  unfold dictGetD contentStr
  cases hc : jLookup mkvs "content" with
  | none => simp [hc]
  | some c =>
      rw [hc] at h
      cases c <;> simp_all

/-- On a well-formed message the chat-history step never aborts, and it keeps
or replaces the current value exactly as the amended claim describes. -/
theorem chatStep_wf (parse : String → Option Json) {msg : Json}
    (h : wfMsg msg = true) (cur : List Json) :
    (chatStep parse msg = .keep
      ∧ chatStepAmended parse cur (contentStr msg) = cur)
    ∨ (∃ xs, chatStep parse msg = .set (.arr xs)
      ∧ chatStepAmended parse cur (contentStr msg) = xs) := by
  cases msg with
  | obj mkvs =>
      have hc := wfMsg_content h
      simp only [chatStep, hc, pyIn, chatStepAmended]
      cases h1 : strContains "Chat history" (contentStr (.obj mkvs)) with
      | false => left; simp [h1]
      | true =>
        cases h2 : strContains "[" (contentStr (.obj mkvs)) with
        | false => left; simp [h1, h2]
        | true =>
          cases h3 : strContains "]" (contentStr (.obj mkvs)) with
          | false => left; simp [h1, h2, h3]
          | true =>
            simp only [h1, h2, h3, Bool.and_self, if_true]
            cases h4 : findSub ['['] (contentStr (.obj mkvs)).data with
            | none => left; simp
            | some si =>
              cases h5 : rfindSub [']'] (contentStr (.obj mkvs)).data with
              | none => left; simp
              | some ri =>
                cases h6 : (si > 0 && ri + 1 > si : Bool) with
                | false => left; simp [h6]
                | true =>
                  simp only [h6, if_true]
                  cases h7 : parse (String.mk
                      (((contentStr (.obj mkvs)).data.take (ri + 1)).drop si)) with
                  | none => left; simp
                  | some v =>
                      cases v with
                      | arr xs => right; exact ⟨xs, rfl, rfl⟩
                      | null => left; simp
                      | bool b => left; simp
                      | num n => left; simp
                      | str s => left; simp
                      | obj o => left; simp
  | null => simp [wfMsg] at h
  | bool b => simp [wfMsg] at h
  | num n => simp [wfMsg] at h
  | str s => simp [wfMsg] at h
  | arr xs => simp [wfMsg] at h

/-- Over well-formed messages the chat-history section loop computes exactly
the amended claim's fold over the message contents. -/
theorem sectionLoop_chat (parse : String → Option Json) :
    ∀ (msgs : List Json), msgs.all wfMsg = true → ∀ cur : List Json,
    sectionLoop (chatStep parse) msgs (.arr cur)
      = .arr (msgs.foldl (fun c m => chatStepAmended parse c (contentStr m)) cur) := by
  intro msgs
  induction msgs with
  | nil => intro _ cur; simp [sectionLoop]
  | cons msg rest ih =>
      intro h cur
      rw [List.all_cons, Bool.and_eq_true] at h
      obtain ⟨hm, hrest⟩ := h
      rcases chatStep_wf parse hm cur with ⟨hk, ha⟩ | ⟨xs, hk, ha⟩
      · simp only [sectionLoop, hk, List.foldl_cons, ha]
        exact ih hrest cur
      · simp only [sectionLoop, hk, List.foldl_cons, ha]
        exact ih hrest xs

/-- The label object `save_labels_to_state` writes: all four fields, a fresh
timestamp, and the pending widget values with their defaults (classification
defaults to the taxonomy's last entry). -/
def pendingLabel (now : String) (s : SessionState) (record_id : Json) : Json :=
  .obj [("human_label_timestamp", .str now),
    ("human_label_classification",
      .str ((s.widgets ("label_classification_" ++ pyStr record_id)).getD
        (LABEL_CLASSIFICATIONS.getLastD ""))),
    ("human_label_critique",
      .str ((s.widgets ("critique_" ++ pyStr record_id)).getD "")),
    ("human_label_correct_memory_optional",
      .str ((s.widgets ("correct_mem_" ++ pyStr record_id)).getD ""))]

theorem save_labels_to_state_eq (now : String) (record_id : Json)
    (s : SessionState) :
    save_labels_to_state now record_id s
      = { s with labels := mapSet s.labels record_id (pendingLabel now s record_id) } :=
  rfl

/-- Persisting the in-progress label touches only the label store. -/
theorem saveCurrent_eq (now : String) (s : SessionState) :
    ∃ L, saveCurrent now s = { s with labels := L } := by
  unfold saveCurrent
  split
  · split
    · dsimp only
      split
      · exact ⟨_, rfl⟩
      · exact ⟨s.labels, rfl⟩
    · exact ⟨s.labels, rfl⟩
  · exact ⟨s.labels, rfl⟩

/-- `go_next` never changes the active sequence. -/
theorem go_next_data (now : String) (s : SessionState) :
    (go_next now s).data = s.data := by
  obtain ⟨L, hL⟩ := saveCurrent_eq now s
  unfold go_next
  rw [hL]
  dsimp only
  split <;> rfl

/-- `go_next` at the last position leaves the index unchanged. -/
theorem go_next_index_at_end (now : String) (s : SessionState)
    (h : s.index = s.data.length - 1) : (go_next now s).index = s.index := by
  obtain ⟨L, hL⟩ := saveCurrent_eq now s
  unfold go_next
  rw [hL]
  dsimp only
  split
  · omega
  · rfl

/-- `go_previous` at index 0 leaves the index at 0. -/
theorem go_previous_index_at_zero (now : String) (s : SessionState)
    (h : s.index = 0) : (go_previous now s).index = 0 := by
  obtain ⟨L, hL⟩ := saveCurrent_eq now s
  unfold go_previous
  rw [hL]
  dsimp only
  split
  · omega
  · exact h

/-- When the current index addresses a record with a truthy identifier, both
navigation callbacks leave the label store equal to the previous store with
that record's pending label written over its identifier. -/
theorem saveCurrent_labels (now : String) (s : SessionState) (record : Json)
    (hr : s.data.get? s.index = some record)
    (hid : truthy (jGet record "observation_id") = true) :
    (saveCurrent now s).labels
      = mapSet s.labels (jGet record "observation_id")
          (pendingLabel now s (jGet record "observation_id")) := by
  have hlt : s.index < s.data.length := by
    rcases List.get?_eq_some.1 hr with ⟨hlt, _⟩
    exact hlt
  have hne : s.data.isEmpty = false := by
    cases hd : s.data with
    | nil => rw [hd] at hlt; simp at hlt
    | cons a l => simp
  unfold saveCurrent
  rw [hr]
  simp only [hne, Bool.not_false, hlt, Bool.true_and, decide_eq_true_eq, if_true]
  rw [hid]
  simp [save_labels_to_state_eq]

/-- Loop-free characterization of the export: the source's fold equals the
spec-side per-record filter-map. -/
theorem genLines_eq (labels : List (Json × Json)) :
    ∀ all_data : List Json, genLines labels all_data = exportSpecLines labels all_data := by
  intro all_data
  induction all_data with
  | nil => simp [genLines, exportSpecLines]
  | cons r rest ih =>
      simp only [genLines, exportSpecLines, List.filterMap_cons] at ih ⊢
      cases hrid : jGet r "observation_id" with
      | null => simpa using ih
      | bool b => cases hml : mapLookup labels (Json.bool b) <;> simpa [hml] using ih
      | num n => cases hml : mapLookup labels (Json.num n) <;> simpa [hml] using ih
      | str str => cases hml : mapLookup labels (Json.str str) <;> simpa [hml] using ih
      | arr xs => cases hml : mapLookup labels (Json.arr xs) <;> simpa [hml] using ih
      | obj kvs => cases hml : mapLookup labels (Json.obj kvs) <;> simpa [hml] using ih

/-- With an empty label store nothing is exported. -/
theorem exportSpecLines_nil_labels : ∀ all_data : List Json,
    exportSpecLines [] all_data = [] := by
  intro all_data
  unfold exportSpecLines
  rw [List.filterMap_eq_nil_iff]
  intro a _
  cases jGet a "observation_id" <;> simp [mapLookup]

/- ### Concrete inputs for witnesses and counterexamples -/

/-- `{"id": "r1", "output": "a"}`. -/
def rawA : Json := .obj [("id", .str "r1"), ("output", .str "a")]

/-- `{"id": "r2", "output": "b"}`. -/
def rawB : Json := .obj [("id", .str "r2"), ("output", .str "b")]

/-- `{"id": "r1", "output": "b"}` — same identifier as `rawA`. -/
def rawDup : Json := .obj [("id", .str "r1"), ("output", .str "b")]

/-- `json.loads` restricted to the serialized forms of the three raw records
above (exactly what the real parser returns on those lines). -/
def parseAB : String → Option Json := fun s =>
  if s = dumps rawA then some rawA
  else if s = dumps rawB then some rawB
  else if s = dumps rawDup then some rawDup
  else none

/-- The transformed record of `rawA`. -/
def tA : Json := .obj [("observation_id", .str "r1"), ("llm_output", .str "a"),
  ("system_prompt", .str ""), ("chat_history", .arr []),
  ("existing_memories", .arr []), ("chat_metadata", .obj []),
  ("alert_type", .str "no_memory")]

/-- The transformed record of `rawDup`. -/
def tDup : Json := .obj [("observation_id", .str "r1"), ("llm_output", .str "b"),
  ("system_prompt", .str ""), ("chat_history", .arr []),
  ("existing_memories", .arr []), ("chat_metadata", .obj []),
  ("alert_type", .str "no_memory")]

/-- A stored label for record `r1`. -/
def L1 : Json := .obj [
  ("human_label_timestamp", .str "2024-01-01T00:00:00.000Z"),
  ("human_label_classification", .str "Correct 👍"),
  ("human_label_critique", .str "c"),
  ("human_label_correct_memory_optional", .str "m")]

/-- A session holding the loaded record `tA` with the label `L1` stored for
its identifier. -/
def s0 : SessionState := ⟨[tA], [tA], 0, [(.str "r1", L1)], fun _ => none⟩

/-- The merged object the export writes for `tA`. -/
def merged1 : Json := pyUpdate tA L1

/-- `json.loads` restricted to the one line the export of `s0` produces. -/
def pReload : String → Option Json := fun s =>
  if s = dumps merged1 then some merged1 else none

/- ### The claims -/

/-- Claim C1 (code bug): for every input file and every parser, the
recovered-labels map returned by the loader is empty — the source checks
`"human_label_classification" in processed_record` on the transformed record,
whose keys are always exactly the seven construction keys, so the recovery
branch is dead and no label embedded in the file is ever recorded, contrary to
the loader's own docstring ("If the file contains existing labels, it
extracts them."). -/
theorem C1_recovered_labels_always_empty (parse : String → Option Json)
    (now : String) (lines : List (Option String)) :
    (load_data_and_labels parse now lines).2 = [] := by
  rw [load_eq]

set_option maxRecDepth 8192

/-- Claim C2 (code bug): feeding the export of a labeled session back through
the loader recovers nothing — here a concrete session with one labeled record
is exported and reloaded (with the parser behaving as `json.loads` does on the
exported line), and the reload yields zero records and an empty
recovered-labels map, instead of recovering the stored classification,
critique and correction: the exported object carries `observation_id` but
neither `id` nor `traceId`, so extraction discards it, and label recovery is
dead code (see C1). -/
theorem C2_roundtrip_loses_labels :
    load_data_and_labels pReload "2024-06-02T00:00:00.000Z"
      [some (generate_labeled_data_jsonl s0)] = ([], []) := rfl

/-- Claim C7: the loader's result is exactly the per-line surviving
extractions in input order — a line that fails UTF-8 decoding, strips to
whitespace, fails JSON parsing, or extracts to null is skipped without
affecting any other line, and no error escapes (the loader is a total
function). -/
theorem C7_loader_skips_bad_lines (parse : String → Option Json)
    (now : String) (lines : List (Option String)) :
    (load_data_and_labels parse now lines).1
      = lines.filterMap (lineExtract parse) := by
  rw [load_eq]

/-- Counterexample to claim C3 as stated: the exported line is not a merge
starting from the original raw record's fields.  For the concrete raw record
`{"id": "r1", "output": "a"}`, loaded and labeled, the single exported object
is the transformed record merged with the label fields: it does not contain
the raw record's field `id` (nor `output`). -/
theorem C3_counterexample :
    transform_record parseAB rawA = some tA
    ∧ generate_labeled_data_jsonl s0 = dumps merged1
    ∧ jHasKey rawA "id" = true
    ∧ jHasKey merged1 "id" = false := ⟨rfl, rfl, rfl, rfl⟩

/-- Claim C3 as amended: for every session whose complete dataset consists of
JSON objects, the export output is exactly one serialized line per record of
the complete dataset (in its original order, never the filtered view's) that
has an `observation_id` and a stored label, each line the shallow merge of the
*stored transformed* record's fields with the four label fields, serialized
with non-ASCII preserved (`dumps` escapes only quotes, backslashes and control
characters); records with no stored label or no `observation_id` are never
included (both facts visible in `exportSpecLines`). -/
theorem C3_export_exact_lines (s : SessionState)
    (hobj : s.all_data.all isObj = true) :
    generate_labeled_data_jsonl s = joinNL (exportSpecLines s.labels s.all_data) := by
  unfold generate_labeled_data_jsonl
  cases hd : s.all_data with
  | nil => simp [exportSpecLines, joinNL]
  | cons a l =>
      cases hl : s.labels with
      | nil => simp [exportSpecLines_nil_labels, joinNL]
      | cons p m => simp [genLines_eq]

/-- Witness for C3: the amended statement evaluated on the concrete labeled
session `s0`. -/
theorem C3_witness :
    s0.all_data.all isObj = true
    ∧ generate_labeled_data_jsonl s0 = joinNL (exportSpecLines s0.labels s0.all_data) :=
  ⟨rfl, C3_export_exact_lines s0 rfl⟩

/-- A transformed record is always produced when the llm output is a string:
the `alert_type` membership test cannot raise. -/
theorem mkTransformed_str_isSome {obs : Json} {ls sp : String} {ch mem md : Json} :
    (mkTransformed obs (.str ls) sp ch mem md).isSome = true := by
  simp [mkTransformed, pyIn]

/-- Counterexample to claim C4 as stated: a record whose `id` field is
present (but empty) is discarded — `extract` returns null although an `id` is
present, because the source tests truthiness, not presence. -/
theorem C4_counterexample :
    jHasKey (Json.obj [("id", Json.str "")]) "id" = true
    ∧ transform_record (fun _ => none) (Json.obj [("id", Json.str "")]) = none :=
  ⟨rfl, rfl⟩

/-- Claim C4 as amended: on well-formed records, `extract` returns null iff
neither `id` nor `traceId` holds a truthy value (non-empty, non-zero,
non-null); when one does, the resulting `observation_id` is the `id` value if
truthy, else the `traceId` value (a truthy `id` takes priority). -/
theorem C4_truthy_identifier (parse : String → Option Json) (r : Json)
    (hwf : wfRecord r = true) :
    (transform_record parse r = none
      ↔ truthy (jGet r "id") = false ∧ truthy (jGet r "traceId") = false)
    ∧ (∀ t, transform_record parse r = some t →
        jGet t "observation_id"
          = if truthy (jGet r "id") then jGet r "id" else jGet r "traceId") := by
  cases r with
  | obj kvs =>
      have heval := transform_wf_eq parse hwf
      obtain ⟨ls, hls⟩ := llmOf_wf hwf
      have hobs : obsOf kvs
          = if truthy (jGet (Json.obj kvs) "id") then jGet (Json.obj kvs) "id"
            else jGet (Json.obj kvs) "traceId" := rfl
      by_cases hid : truthy (jGet (Json.obj kvs) "id") = true
      · have htr : truthy (obsOf kvs) = true := by
          rw [hobs, if_pos hid]; exact hid
        rw [if_pos htr] at heval
        refine ⟨⟨fun hnone => ?_, fun hfalse => ?_⟩, fun t hsome => ?_⟩
        · rw [heval, hls] at hnone
          have := @mkTransformed_str_isSome (obsOf kvs) ls
            ((sysPromptLoop (msgsOf kvs) "").getD "")
            (sectionLoop (chatStep parse) (msgsOf kvs) (.arr []))
            (sectionLoop (memStep parse) (msgsOf kvs) (.arr []))
            (sectionLoop (metaStep parse) (msgsOf kvs) (.obj []))
          rw [hnone] at this
          cases this
        · rw [hid] at hfalse
          cases hfalse.1
        · rw [heval] at hsome
          obtain ⟨b, hb, hteq⟩ := mkTransformed_some hsome
          subst hteq
          show obsOf kvs = _
          rw [hobs, if_pos hid]
      · have hid' : truthy (jGet (Json.obj kvs) "id") = false :=
          Bool.not_eq_true _ ▸ (Bool.eq_false_iff.mpr hid)
        by_cases htc : truthy (jGet (Json.obj kvs) "traceId") = true
        · have htr : truthy (obsOf kvs) = true := by
            rw [hobs, if_neg hid]; exact htc
          rw [if_pos htr] at heval
          refine ⟨⟨fun hnone => ?_, fun hfalse => ?_⟩, fun t hsome => ?_⟩
          · rw [heval, hls] at hnone
            have := @mkTransformed_str_isSome (obsOf kvs) ls
              ((sysPromptLoop (msgsOf kvs) "").getD "")
              (sectionLoop (chatStep parse) (msgsOf kvs) (.arr []))
              (sectionLoop (memStep parse) (msgsOf kvs) (.arr []))
              (sectionLoop (metaStep parse) (msgsOf kvs) (.obj []))
            rw [hnone] at this
            cases this
          · rw [htc] at hfalse
            cases hfalse.2
          · rw [heval] at hsome
            obtain ⟨b, hb, hteq⟩ := mkTransformed_some hsome
            subst hteq
            show obsOf kvs = _
            rw [hobs, if_neg hid]
        · have htc' : truthy (jGet (Json.obj kvs) "traceId") = false :=
            Bool.not_eq_true _ ▸ (Bool.eq_false_iff.mpr htc)
          have htr : ¬ truthy (obsOf kvs) = true := by
            rw [hobs, if_neg hid, htc']
            simp
          rw [if_neg htr] at heval
          refine ⟨⟨fun _ => ⟨hid', htc'⟩, fun _ => heval⟩, fun t hsome => ?_⟩
          rw [heval] at hsome
          cases hsome
  | null => simp [wfRecord] at hwf
  | bool b => simp [wfRecord] at hwf
  | num n => simp [wfRecord] at hwf
  | str s => simp [wfRecord] at hwf
  | arr xs => simp [wfRecord] at hwf

/-- Witness for C4: the amended statement evaluated on the concrete record
`{"id": "r1", "output": "a"}`. -/
theorem C4_witness :
    wfRecord rawA = true
    ∧ ((transform_record (fun _ => none) rawA = none
        ↔ truthy (jGet rawA "id") = false ∧ truthy (jGet rawA "traceId") = false)
      ∧ (∀ t, transform_record (fun _ => none) rawA = some t →
          jGet t "observation_id"
            = if truthy (jGet rawA "id") then jGet rawA "id"
              else jGet rawA "traceId")) :=
  ⟨rfl, C4_truthy_identifier (fun _ => none) rawA rfl⟩

/-- Claim C5: for every successfully extracted record whose llm output is a
string (the `output` field, or `""` when absent — claim hypothesis `hs`), the
record's `alert_type` is `"memory"` iff that string contains the literal
substring `"<MEMORY"` (character-wise containment, so escaped or encoded
variants such as `"&lt;MEMORY"` do not match), else `"no_memory"`. -/
theorem C5_alert_type_iff (parse : String → Option Json) (r t : Json)
    (s : String) (h : transform_record parse r = some t)
    (hs : jGet t "llm_output" = Json.str s) :
    jGet t "alert_type"
      = Json.str (if strContains "<MEMORY" s then "memory" else "no_memory") := by
  obtain ⟨kvs, sp, ch, mem, md, hr, ht, hmk⟩ := transform_record_some h
  obtain ⟨b, hb, hteq⟩ := mkTransformed_some hmk
  subst hteq
  have hll : llmOf kvs = Json.str s := hs
  rw [hll] at hb
  have hbv : strContains "<MEMORY" s = b := Option.some.inj hb
  subst hbv
  rfl

/-- The transformed record of `{"id": "r5", "output": "hi <MEMORY>x</MEMORY>"}`. -/
def t5 : Json := .obj [("observation_id", .str "r5"),
  ("llm_output", .str "hi <MEMORY>x</MEMORY>"), ("system_prompt", .str ""),
  ("chat_history", .arr []), ("existing_memories", .arr []),
  ("chat_metadata", .obj []), ("alert_type", .str "memory")]

/-- Witness for C5 at the record `{"id": "r5", "output": "hi <MEMORY>x</MEMORY>"}`
(spec Scenario A): the condition evaluates to `"memory"`. -/
theorem C5_witness :
    transform_record (fun _ => none)
        (.obj [("id", .str "r5"), ("output", .str "hi <MEMORY>x</MEMORY>")])
      = some t5
    ∧ jGet t5 "llm_output" = Json.str "hi <MEMORY>x</MEMORY>"
    ∧ jGet t5 "alert_type"
        = Json.str (if strContains "<MEMORY" "hi <MEMORY>x</MEMORY>"
            then "memory" else "no_memory") :=
  ⟨rfl, rfl,
    C5_alert_type_iff (fun _ => none)
      (.obj [("id", .str "r5"), ("output", .str "hi <MEMORY>x</MEMORY>")])
      t5 "hi <MEMORY>x</MEMORY>" rfl rfl⟩

/-- The parser used by the C6 counterexample (the real `json.loads` result on
the only substring the claim would extract). -/
def pc6 : String → Option Json := fun s =>
  if s = "[1]" then some (.arr [.num 1]) else none

/-- A record with one message whose content is `"[1] Chat history"`: it
contains `"Chat history"`, `"["` and `"]"`, and its first `[` is at index 0. -/
def rc6 : Json := .obj [("id", .str "rc"),
  ("input", .obj [("messages",
    .arr [.obj [("content", .str "[1] Chat history")]])])]

/-- Counterexample to claim C6 as stated: on `rc6` the claim predicts that the
substring from the first `[` to the last `]` (namely `"[1]"`) is parsed and
kept, giving chat history `[1]`; the code leaves the chat history empty,
because its guard `start_idx > 0` rejects a first `[` at index 0. -/
theorem C6_counterexample :
    (transform_record pc6 rc6).map (fun t => jGet t "chat_history")
      = some (.arr [])
    ∧ chatHistoryClaimed pc6 ["[1] Chat history"] = [Json.num 1]
    ∧ Json.arr [] ≠ Json.arr [Json.num 1] :=
  ⟨rfl, rfl, by simp⟩

/-- Claim C6 as amended: on a well-formed record, the extracted chat history
is the fold of the claim's per-message step over the message contents in
order — substring from the first `[` to the last `]` inclusive, parsed as
JSON and kept only if an array, parse failures and type mismatches skipped,
the last successful parse winning — with the added guard that the first `[`
must sit at a positive index and the last `]` end after it. -/
theorem C6_chat_history (parse : String → Option Json)
    (kvs : List (String × Json)) (t : Json)
    (hwf : wfRecord (.obj kvs) = true)
    (h : transform_record parse (.obj kvs) = some t) :
    jGet t "chat_history"
      = .arr (chatHistoryAmended parse ((msgsOf kvs).map contentStr)) := by
  have heval := transform_wf_eq parse hwf
  rw [heval] at h
  by_cases ht : truthy (obsOf kvs) = true
  · rw [if_pos ht] at h
    obtain ⟨b, hb, hteq⟩ := mkTransformed_some h
    subst hteq
    show sectionLoop (chatStep parse) (msgsOf kvs) (.arr []) = _
    rw [sectionLoop_chat parse _ (msgsOf_wf hwf) []]
    unfold chatHistoryAmended
    rw [List.foldl_map]
  · rw [if_neg ht] at h
    cases h

/-- The parser for the C6 witness. -/
def pc6w : String → Option Json := fun s =>
  if s = "[1]" then some (.arr [.num 1])
  else if s = "[2]" then some (.arr [.num 2]) else none

/-- Two messages that both extract successfully (`[1]` then `[2]`). -/
def kvs6 : List (String × Json) := [("id", .str "r6"),
  ("input", .obj [("messages", .arr [
    .obj [("content", .str "Chat history a[1]b")],
    .obj [("content", .str "Chat history a[2]b")]])])]

/-- The transformed record of `kvs6`: the last successful parse wins. -/
def t6 : Json := .obj [("observation_id", .str "r6"), ("llm_output", .str ""),
  ("system_prompt", .str ""), ("chat_history", .arr [.num 2]),
  ("existing_memories", .arr []), ("chat_metadata", .obj []),
  ("alert_type", .str "no_memory")]

/-- Witness for C6: both messages parse, the second one wins. -/
theorem C6_witness :
    wfRecord (.obj kvs6) = true
    ∧ transform_record pc6w (.obj kvs6) = some t6
    ∧ jGet t6 "chat_history"
        = .arr (chatHistoryAmended pc6w ((msgsOf kvs6).map contentStr)) :=
  ⟨rfl, rfl, C6_chat_history pc6w kvs6 t6 rfl rfl⟩

/-- Iterating `go_next` preserves "index at last position" and the active
sequence itself. -/
theorem go_next_iterate (now : String) : ∀ (n : Nat) (s : SessionState),
    s.index = s.data.length - 1 →
    ((go_next now)^[n] s).index = ((go_next now)^[n] s).data.length - 1
    ∧ ((go_next now)^[n] s).data = s.data := by
  intro n
  induction n with
  | zero => intro s h; exact ⟨h, rfl⟩
  | succ n ih =>
      intro s h
      rw [Function.iterate_succ_apply]
      have hd := go_next_data now s
      have hi := go_next_index_at_end now s h
      obtain ⟨ih1, ih2⟩ := ih (go_next now s) (by rw [hi, hd, h])
      exact ⟨ih1, by rw [ih2, hd]⟩

/-- Claim C8: on a non-empty active sequence, any number of `go_next` calls
from the last position leaves the index at `len - 1` (no wraparound, no
error — the callbacks are total functions), and `go_previous` at index 0
leaves the index at 0. -/
theorem C8_navigation_clamps (now : String) (s s2 : SessionState) (n : Nat)
    (h1 : s.data ≠ []) (h2 : s.index = s.data.length - 1)
    (h3 : s2.data ≠ []) (h4 : s2.index = 0) :
    ((go_next now)^[n] s).index = s.data.length - 1
    ∧ (go_previous now s2).index = 0 := by
  refine ⟨?_, go_previous_index_at_zero now s2 h4⟩
  obtain ⟨hi, hd⟩ := go_next_iterate now n s h2
  rw [hi, hd]

/-- A session at the last position of a two-record sequence. -/
def s8 : SessionState := ⟨[tA, tDup], [tA, tDup], 1, [], fun _ => none⟩

/-- A session at position 0 of a one-record sequence. -/
def s8b : SessionState := ⟨[tA], [tA], 0, [], fun _ => none⟩

/-- Witness for C8: three `go_next` calls from the last position of a
two-record sequence stay at index 1, and `go_previous` at 0 stays at 0. -/
theorem C8_witness :
    s8.data ≠ [] ∧ s8.index = s8.data.length - 1
    ∧ s8b.data ≠ [] ∧ s8b.index = 0
    ∧ ((go_next "T")^[3] s8).index = s8.data.length - 1
    ∧ (go_previous "T" s8b).index = 0 := by
  have h := C8_navigation_clamps "T" s8 s8b 3 (by simp [s8]) rfl (by simp [s8b]) rfl
  exact ⟨by simp [s8], rfl, by simp [s8b], rfl, h.1, h.2⟩

/-- Counterexample to claim C9 as stated: two input lines with the same
identifier `"r1"` but different outputs load into two distinct records that
carry the same `observation_id` — the loader does not deduplicate. -/
theorem C9_counterexample :
    (load_data_and_labels parseAB "T"
        [some (dumps rawA), some (dumps rawDup)]).1 = [tA, tDup]
    ∧ jGet tA "observation_id" = jGet tDup "observation_id"
    ∧ tA ≠ tDup :=
  ⟨rfl, rfl, by simp [tA, tDup]⟩

/-- Claim C9 as amended: the loader preserves input order and performs no
deduplication, so `observation_id` is unique within the loaded dataset
provided the surviving input lines carry pairwise-distinct identifiers. -/
theorem C9_unique_ids (parse : String → Option Json) (now : String)
    (lines : List (Option String))
    (h : ((lines.filterMap (lineExtract parse)).map
        (fun r => jGet r "observation_id")).Pairwise (· ≠ ·)) :
    (((load_data_and_labels parse now lines).1).map
        (fun r => jGet r "observation_id")).Pairwise (· ≠ ·) := by
  rw [load_eq]
  exact h

/-- Witness for C9: two lines with distinct identifiers load into records
with pairwise-distinct `observation_id`s. -/
theorem C9_witness :
    (([some (dumps rawA), some (dumps rawB)].filterMap (lineExtract parseAB)).map
        (fun r => jGet r "observation_id")).Pairwise (· ≠ ·)
    ∧ (((load_data_and_labels parseAB "T"
          [some (dumps rawA), some (dumps rawB)]).1).map
        (fun r => jGet r "observation_id")).Pairwise (· ≠ ·) := by
  have hv : (([some (dumps rawA), some (dumps rawB)].filterMap
        (lineExtract parseAB)).map (fun r => jGet r "observation_id"))
      = [Json.str "r1", Json.str "r2"] := rfl
  have h1 : (([some (dumps rawA), some (dumps rawB)].filterMap
        (lineExtract parseAB)).map (fun r => jGet r "observation_id")).Pairwise
        (· ≠ ·) := by
    rw [hv]
    simp
  exact ⟨h1, C9_unique_ids parseAB "T" [some (dumps rawA), some (dumps rawB)] h1⟩

theorem go_next_labels (now : String) (s : SessionState) :
    (go_next now s).labels = (saveCurrent now s).labels := by
  unfold go_next
  dsimp only
  split <;> rfl

theorem go_previous_labels (now : String) (s : SessionState) :
    (go_previous now s).labels = (saveCurrent now s).labels := by
  unfold go_previous
  dsimp only
  split <;> rfl

/-- Claim C10: whenever the current index addresses a record with a (truthy)
`observation_id`, both navigation callbacks write that record's pending label
— all four fields, the fresh timestamp `now`, the classification defaulting
to the taxonomy's last entry when no pending widget value exists (see
`pendingLabel`) — into the label store under that identifier, overwriting any
previously stored label (no edits required: visiting and navigating suffices). -/
theorem C10_navigate_saves (now : String) (s : SessionState) (record : Json)
    (hr : s.data.get? s.index = some record)
    (hid : truthy (jGet record "observation_id") = true) :
    mapLookup (go_next now s).labels (jGet record "observation_id")
      = some (pendingLabel now s (jGet record "observation_id"))
    ∧ mapLookup (go_previous now s).labels (jGet record "observation_id")
      = some (pendingLabel now s (jGet record "observation_id")) := by
  have hsc := saveCurrent_labels now s record hr hid
  refine ⟨?_, ?_⟩
  · rw [go_next_labels, hsc, mapLookup_mapSet]
  · rw [go_previous_labels, hsc, mapLookup_mapSet]

/-- A one-record session that already stores an (arbitrary) old label for
`"r1"`, to exhibit the overwrite. -/
def s10 : SessionState :=
  ⟨[tA], [tA], 0, [(.str "r1", .str "old")], fun _ => none⟩

/-- Witness for C10: navigating in `s10` overwrites the old label of `"r1"`
with the freshly written four-field label. -/
theorem C10_witness :
    s10.data.get? s10.index = some tA
    ∧ truthy (jGet tA "observation_id") = true
    ∧ mapLookup (go_next "T10" s10).labels (jGet tA "observation_id")
        = some (pendingLabel "T10" s10 (jGet tA "observation_id"))
    ∧ mapLookup (go_previous "T10" s10).labels (jGet tA "observation_id")
        = some (pendingLabel "T10" s10 (jGet tA "observation_id")) := by
  have h := C10_navigate_saves "T10" s10 tA rfl rfl
  exact ⟨rfl, rfl, h.1, h.2⟩
